import Mathlib

/-!
Verification of the identity-resolution engine of the cub-scout repository
(`src/processing/player_matching.py`, `src/processing/embeddings.py`,
`src/storage/db.py`), as a shallow embedding in Lean 4.

Conventions of the embedding:
* Python strings are Lean `String`s; all character-level operations
  (lowercasing, whitespace splitting, separator splitting) are defined on
  `String.data` so that every definition evaluates inside the kernel.
* Python floats (fuzzy scores, cosine similarities) are modelled as `ℚ`.
* The SQL tables `core.roster`, `recruiting.recruits` and
  `scouting.pending_links` are lists of rows; `LIMIT 1` is `List.find?`
  on the row list.
* The external embedding service (`generate_embedding`, which may raise)
  is a parameter `genEmb : String → Option (List ℚ)` with `none` standing
  for a raised exception, and the pgvector neighbor query
  (`find_similar_by_embedding`) is a parameter
  `simByEmb : List ℚ → Nat → List Neighbor`.
-/

namespace CubScout

/-! ## Python string primitives -/

/-- Python `str.lower()` / SQL `LOWER` (ASCII case mapping). -/
def pyLower (s : String) : String := ⟨s.data.map Char.toLower⟩

/-- Python `str.upper()` / SQL `UPPER` (ASCII case mapping). -/
def pyUpper (s : String) : String := ⟨s.data.map Char.toUpper⟩

def isWs (c : Char) : Bool := c.isWhitespace

/-- Remove leading and trailing whitespace of a character list. -/
def stripChars (l : List Char) : List Char :=
  ((l.dropWhile isWs).reverse.dropWhile isWs).reverse

/-- Python `str.strip()`. -/
def pyStrip (s : String) : String := ⟨stripChars s.data⟩

/-- Python truthiness of an optional string: `None` and `""` are falsy. -/
def optTruthy : Option String → Bool
  | none => false
  | some s => !s.data.isEmpty

/-- Python truthiness of an optional int: `None` and `0` are falsy. -/
def intTruthy : Option Int → Bool
  | none => false
  | some y => y != 0

/-- Python `a or dflt` on an optional string. -/
def pyOr (o : Option String) (dflt : String) : String :=
  if optTruthy o then o.getD dflt else dflt

/-- Worker for `wsTokens`: `cur` holds the reversed current token. -/
def wsTokensAux : List Char → List Char → List (List Char)
  | cur, [] => if cur.isEmpty then [] else [cur.reverse]
  | cur, c :: cs =>
    if isWs c then
      if cur.isEmpty then wsTokensAux [] cs else cur.reverse :: wsTokensAux [] cs
    else wsTokensAux (c :: cur) cs

/-- Python `str.split()` with no separator: runs of whitespace separate
tokens, and leading/trailing whitespace produces no empty tokens. -/
def wsTokens (l : List Char) : List (List Char) := wsTokensAux [] l

/-- Worker for `pySplit`: scans for the separator `s :: ss`, `cur` holds
the reversed current field. -/
def splitSepGo (s : Char) (ss : List Char) : List Char → List Char → List (List Char)
  | cur, [] => [cur.reverse]
  | cur, c :: cs =>
    if (s :: ss).isPrefixOf (c :: cs) then
      cur.reverse :: splitSepGo s ss [] (cs.drop ss.length)
    else splitSepGo s ss (c :: cur) cs
termination_by cur l => l.length
decreasing_by
  · simp only [List.length_cons, List.length_drop]
    omega
  · simp only [List.length_cons]
    omega

/-- Python `str.split(sep)` for a non-empty separator (Python raises on an
empty separator; that case is unreachable in this code base and is mapped
to `[s]`). -/
def pySplit (sep s : String) : List String :=
  match sep.data with
  | [] => [s]
  | c :: cs => (splitSepGo c cs [] s.data).map fun l => ⟨l⟩

/-- Python `" | ".join(parts)`-style joining, on character data. -/
def pyJoin (sep : String) (parts : List String) : String :=
  ⟨List.intercalate sep.data (parts.map (·.data))⟩

/-- Python `str.split(maxsplit=1)` reduced to the (first, rest) pair used by
`find_recruit_match`: `first = parts[0] if parts else ""`,
`last = parts[1] if len(parts) > 1 else ""`. -/
def pySplitMax1 (s : String) : String × String :=
  let l := s.data.dropWhile isWs
  let tok := l.takeWhile fun c => !isWs c
  let rest := (l.dropWhile fun c => !isWs c).dropWhile isWs
  (⟨tok⟩, ⟨rest⟩)

/-! ## The fuzzy name matcher

`fuzzy_match_name` calls rapidfuzz's `fuzz.token_sort_ratio`, an external
library: both strings are split into whitespace tokens, the tokens are
sorted lexicographically, joined with single spaces, and the joined strings
are compared with the normalized InDel similarity
`100 * (len1 + len2 - indel_distance) / (len1 + len2)`, where
`indel_distance = len1 + len2 - 2 * lcs`.  The library semantics is
embedded below (`lexLe`, `lcsLen`, `indelScore`, `tokenSortSimilarity`). -/

/-- Lexicographic comparison of character lists by code point, the order
Python's `sorted` uses on strings. -/
def lexLe : List Char → List Char → Bool
  | [], _ => true
  | _ :: _, [] => false
  | a :: as, b :: bs => if a < b then true else if b < a then false else lexLe as bs

/-- Length of a longest common subsequence of two character lists. -/
def lcsLen : List Char → List Char → Nat
  | [], _ => 0
  | _ :: _, [] => 0
  | a :: as, b :: bs =>
    if a = b then lcsLen as bs + 1
    else max (lcsLen (a :: as) bs) (lcsLen as (b :: bs))
termination_by a b => a.length + b.length
decreasing_by
  · simp only [List.length_cons]
    omega
  · simp only [List.length_cons]
    omega
  · simp only [List.length_cons]
    omega

/-- Normalized InDel similarity on a 0–100 scale (rapidfuzz `ratio`):
`100 * (2 * lcs) / (len1 + len2)`, with two empty strings scoring 100. -/
def indelScore (a b : List Char) : ℚ :=
  if a.length + b.length = 0 then 100
  else 100 * (2 * (lcsLen a b : ℚ)) / ((a.length : ℚ) + (b.length : ℚ))

/-- The token_sort normal form: whitespace tokens, sorted, joined by " ". -/
def tokenSortJoined (s : String) : List Char :=
  List.intercalate [' '] ((wsTokens s.data).mergeSort lexLe)

/-- rapidfuzz `fuzz.token_sort_ratio`. -/
def tokenSortSimilarity (s1 s2 : String) : ℚ :=
  indelScore (tokenSortJoined s1) (tokenSortJoined s2)

/-- `player_matching.fuzzy_match_name`: normalize both names
(`lower().strip()`), then token_sort scoring. Returns a score in 0–100. -/
def fuzzy_match_name (name1 name2 : String) : ℚ :=
  let n1 := pyStrip (pyLower name1)
  let n2 := pyStrip (pyLower name2)
  tokenSortSimilarity n1 n2

/-! ## Data model

Rows of `core.roster`, `recruiting.recruits` and
`scouting.player_embeddings` / `scouting.pending_links`, and the
`PlayerMatch` dataclass of `player_matching.py`. Database ids are kept as
`String` (the code always renders them with `str(...)`; the SQL layer
compares the external `athlete_id` string against ids directly). -/

inductive PSource
  | roster
  | recruit
deriving DecidableEq, Repr

inductive MatchMethod
  | deterministic
  | vector
  | fuzzy
deriving DecidableEq, Repr

/-- The `PlayerMatch` dataclass. `match_method` defaults to `fuzzy`. -/
structure PlayerMatch where
  source : PSource
  source_id : String
  first_name : String
  last_name : String
  team : String
  position : Option String
  year : Option Int
  confidence : ℚ
  match_method : MatchMethod := .fuzzy
deriving DecidableEq, Repr

/-- A row of `core.roster` (the columns the matcher reads). -/
structure RosterRow where
  id : String
  first_name : String
  last_name : String
  team : String
  position : Option String
  year : Int
deriving DecidableEq, Repr

/-- A row of `recruiting.recruits` (the columns the matcher reads). -/
structure RecruitRow where
  id : String
  name : String
  committed_to : Option String
  position : Option String
  recruiting_year : Option Int
  athlete_id : Option String
deriving DecidableEq, Repr

/-- A row returned by `db.find_similar_by_embedding`: roster id, the
stored identity text, and `1 - cosine_distance` similarity. -/
structure Neighbor where
  roster_id : String
  identity_text : String
  similarity : ℚ
deriving DecidableEq, Repr

/-- The read-only datastore: the two canonical identity tables. -/
structure DB where
  roster : List RosterRow
  recruits : List RecruitRow
deriving Repr

/-- `source_context` dicts are modelled as association lists; Python
truthiness makes the empty dict falsy. -/
abbrev Ctx := List (String × String)

def ctxTruthy : Option Ctx → Bool
  | none => false
  | some c => !c.isEmpty

/-- A row of `scouting.pending_links` as written by
`db.insert_pending_link` (status "pending", timestamps omitted). -/
structure PendingLink where
  id : Nat
  source_name : String
  source_team : Option String
  source_context : Option Ctx
  candidate_roster_id : Option String
  match_score : ℚ
  match_method : String
deriving DecidableEq, Repr

/-- The mutable store: the `pending_links` table and its id sequence. -/
structure Store where
  pending_links : List PendingLink
  next_id : Nat
deriving DecidableEq, Repr

/-- `db.insert_pending_link`: appends one row and returns its id.
`source_context` is stored only when the dict is truthy
(`json.dumps(source_context) if source_context else None`). -/
def insert_pending_link (st : Store) (source_name : String)
    (source_team : Option String) (source_context : Option Ctx)
    (candidate_roster_id : Option String) (match_score : ℚ)
    (match_method : String) : Nat × Store :=
  let link : PendingLink :=
    { id := st.next_id
      source_name := source_name
      source_team := source_team
      source_context := if ctxTruthy source_context then source_context else none
      candidate_roster_id := candidate_roster_id
      match_score := match_score
      match_method := match_method }
  (st.next_id, { pending_links := st.pending_links ++ [link], next_id := st.next_id + 1 })

/-! ## Thresholds (`player_matching.py` module constants) -/

def MATCH_THRESHOLD : ℚ := 80

def VECTOR_MATCH_HIGH_CONFIDENCE : ℚ := 92 / 100

def VECTOR_MATCH_LOW_CONFIDENCE : ℚ := 80 / 100

/-! ## The identity text encoder (`embeddings.build_identity_text`) -/

/-- The query dict passed to `build_identity_text`. -/
structure PlayerInfo where
  name : String
  team : String
  year : Int
  position : Option String := none
  hometown : Option String := none

/-- `embeddings.build_identity_text`: parts in order name, [position],
team, str(year), [hometown], joined by " | "; falsy (absent or empty)
optional fields are omitted. -/
def build_identity_text (p : PlayerInfo) : String :=
  let parts := [p.name]
  let parts := if optTruthy p.position then parts ++ [p.position.getD ""] else parts
  let parts := parts ++ [p.team]
  let parts := parts ++ [toString p.year]
  let parts := if optTruthy p.hometown then parts ++ [p.hometown.getD ""] else parts
  pyJoin " | " parts

/-! ## Tier 1: deterministic matching -/

/-- The `PlayerMatch` a deterministic tier builds from a roster row:
confidence fixed at 100, method deterministic. -/
def rosterDetMatch (r : RosterRow) : PlayerMatch :=
  { source := .roster
    source_id := r.id
    first_name := r.first_name
    last_name := r.last_name
    team := r.team
    position := r.position
    year := some r.year
    confidence := 100
    match_method := .deterministic }

/-- `find_deterministic_match`: first roster row with case-insensitive
full-name, case-insensitive team and exact year equality (`LIMIT 1`). -/
def find_deterministic_match (db : DB) (name team : String) (year : Int) :
    Option PlayerMatch :=
  (db.roster.find? fun r =>
    (pyLower (r.first_name ++ " " ++ r.last_name) == pyLower name)
      && (pyLower r.team == pyLower team)
      && (r.year == year)).map rosterDetMatch

/-- `find_deterministic_match_by_athlete_id`: `core.roster` joined to
`recruiting.recruits` on `rec.athlete_id = r.id`, filtered by
`rec.athlete_id = athlete_id`, `LIMIT 1`: a roster row with
`id = athlete_id` is returned when some recruit row carries that
athlete id. -/
def find_deterministic_match_by_athlete_id (db : DB) (athlete_id : String) :
    Option PlayerMatch :=
  if db.recruits.any fun rec => rec.athlete_id == some athlete_id then
    (db.roster.find? fun r => r.id == athlete_id).map rosterDetMatch
  else none

/-! ## Tier 2: vector similarity matching (`find_vector_match`) -/

/-- The team gate of `find_vector_match`:
`if team and candidate_team and team.lower() != candidate_team.lower()`. -/
def teamMismatch (team candidate_team : Option String) : Bool :=
  optTruthy team && optTruthy candidate_team
    && (pyLower (team.getD "") != pyLower (candidate_team.getD ""))

/-- The `PlayerMatch` built from the roster row fetched for an accepted
neighbor: confidence `similarity * 100`, method vector. -/
def rosterVectorMatch (r : RosterRow) (similarity : ℚ) : PlayerMatch :=
  { source := .roster
    source_id := r.id
    first_name := r.first_name
    last_name := r.last_name
    team := r.team
    position := r.position
    year := some r.year
    confidence := similarity * 100
    match_method := .vector }

/-- The `for candidate in similar` loop of `find_vector_match`:
parse the stored identity text on " | ", read the third field as the
embedded team (`parts[2] if len(parts) >= 3 else None`, i.e. `get? 2`),
skip on team mismatch, accept at similarity ≥ 0.92 when the roster row
resolves, otherwise keep scanning. -/
def vectorScan (db : DB) (team : Option String) : List Neighbor → Option PlayerMatch
  | [] => none
  | c :: rest =>
    let parts := pySplit " | " c.identity_text
    let candidate_team := parts.get? 2
    if teamMismatch team candidate_team then vectorScan db team rest
    else if VECTOR_MATCH_HIGH_CONFIDENCE ≤ c.similarity then
      match db.roster.find? fun r => r.id == c.roster_id with
      | some row => some (rosterVectorMatch row c.similarity)
      | none => vectorScan db team rest
    else vectorScan db team rest

/-- `find_vector_match`: build the query identity text (`team or
"Unknown"`), generate an embedding (`none` models a raised exception,
caught and turned into `None`), fetch the top-5 neighbors, scan them. -/
def find_vector_match (genEmb : String → Option (List ℚ))
    (simByEmb : List ℚ → Nat → List Neighbor) (db : DB)
    (name : String) (team position : Option String) (year : Int) :
    Option PlayerMatch :=
  let identity_text := build_identity_text
    { name := name, team := pyOr team "Unknown", year := year, position := position }
  match genEmb identity_text with
  | none => none
  | some emb =>
    let similar := simByEmb emb 5
    if similar.isEmpty then none
    else vectorScan db team similar

/-! ## Tier 3: fuzzy matching (`find_roster_match`, `find_recruit_match`) -/

/-- The SQL filter of `find_roster_match`: `year = %s`, plus
`LOWER(team) = LOWER(%s)` when a team is supplied and
`UPPER(position) = UPPER(%s)` when a position is supplied (a NULL
position never equals a supplied one). -/
def rosterFilter (team position : Option String) (year : Int) (r : RosterRow) : Bool :=
  (r.year == year)
    && (if optTruthy team then pyLower r.team == pyLower (team.getD "") else true)
    && (if optTruthy position then
          match r.position with
          | some p => pyUpper p == pyUpper (position.getD "")
          | none => false
        else true)

/-- The `PlayerMatch` built for a fuzzy roster candidate (the dataclass
default method, fuzzy). -/
def rosterFuzzyMatch (r : RosterRow) (score : ℚ) : PlayerMatch :=
  { source := .roster
    source_id := r.id
    first_name := r.first_name
    last_name := r.last_name
    team := r.team
    position := r.position
    year := some r.year
    confidence := score
    match_method := .fuzzy }

/-- One step of the best-candidate loop of `find_roster_match`:
`if score > best_score and score >= MATCH_THRESHOLD`. -/
def bestRosterStep (name : String) (acc : ℚ × Option PlayerMatch) (r : RosterRow) :
    ℚ × Option PlayerMatch :=
  let score := fuzzy_match_name name (r.first_name ++ " " ++ r.last_name)
  if acc.1 < score ∧ MATCH_THRESHOLD ≤ score then (score, some (rosterFuzzyMatch r score))
  else acc

/-- `find_roster_match`: filter `core.roster`, keep the best candidate
scoring strictly above the running best and at least 80. -/
def find_roster_match (db : DB) (name : String) (team position : Option String)
    (year : Int) : Option PlayerMatch :=
  ((db.roster.filter (rosterFilter team position year)).foldl
    (bestRosterStep name) (0, none)).2

/-- The SQL filter of `find_recruit_match`: optional
`LOWER(committed_to) = LOWER(%s)`, `UPPER(position) = UPPER(%s)` and
`recruiting_year = %s` filters (`if year:` is Python truthiness, so a
`0`/`None` year disables the filter). -/
def recruitFilter (team position : Option String) (year : Option Int) (r : RecruitRow) :
    Bool :=
  (if optTruthy team then
      match r.committed_to with
      | some ct => pyLower ct == pyLower (team.getD "")
      | none => false
    else true)
    && (if optTruthy position then
          match r.position with
          | some p => pyUpper p == pyUpper (position.getD "")
          | none => false
        else true)
    && (if intTruthy year then r.recruiting_year == some (year.getD 0) else true)

/-- The `PlayerMatch` built for a fuzzy recruit candidate: the recruit
name is split once (`split(maxsplit=1)`) into first/last, team is
`committed_to or ""`. -/
def recruitFuzzyMatch (r : RecruitRow) (score : ℚ) : PlayerMatch :=
  let parts := pySplitMax1 r.name
  { source := .recruit
    source_id := r.id
    first_name := parts.1
    last_name := parts.2
    team := pyOr r.committed_to ""
    position := r.position
    year := r.recruiting_year
    confidence := score
    match_method := .fuzzy }

/-- One step of the best-candidate loop of `find_recruit_match`. -/
def bestRecruitStep (name : String) (acc : ℚ × Option PlayerMatch) (r : RecruitRow) :
    ℚ × Option PlayerMatch :=
  let score := fuzzy_match_name name r.name
  if acc.1 < score ∧ MATCH_THRESHOLD ≤ score then (score, some (recruitFuzzyMatch r score))
  else acc

/-- `find_recruit_match`: filter `recruiting.recruits`, keep the best
candidate scoring strictly above the running best and at least 80. -/
def find_recruit_match (db : DB) (name : String) (team position : Option String)
    (year : Option Int) : Option PlayerMatch :=
  ((db.recruits.filter (recruitFilter team position year)).foldl
    (bestRecruitStep name) (0, none)).2

/-! ## The cascade (`match_player_with_review`) -/

/-- The Tier-1 block of `match_player_with_review`: the athlete-id lookup
when `athlete_id` is truthy, then the exact name+team+year lookup when
`team` is truthy; the first hit is returned. -/
def deterministicTier (db : DB) (name : String) (team : Option String) (year : Int)
    (athlete_id : Option String) : Option PlayerMatch :=
  match (if optTruthy athlete_id then
      find_deterministic_match_by_athlete_id db (athlete_id.getD "") else none) with
  | some m => some m
  | none =>
    if optTruthy team then find_deterministic_match db name (team.getD "") year
    else none

/-- The recruit fallback at the end of `match_player_with_review`:
`if recruit_match and recruit_match.confidence >= MATCH_THRESHOLD`,
accepted directly with method fuzzy; otherwise `(None, None)`. -/
def recruitFallback (db : DB) (st : Store) (name : String)
    (team position : Option String) (year : Int) :
    (Option PlayerMatch × Option Nat) × Store :=
  match find_recruit_match db name team position (some year) with
  | some rm =>
    if MATCH_THRESHOLD ≤ rm.confidence then
      ((some { rm with match_method := .fuzzy }, none), st)
    else ((none, none), st)
  | none => ((none, none), st)

/-- The Tier-3 block of `match_player_with_review`: the best fuzzy roster
candidate is accepted at normalized confidence ≥ 0.92, deferred into
`pending_links` at ≥ 0.80, and the recruit fallback runs otherwise. -/
def fuzzyTier (db : DB) (st : Store) (name : String)
    (team position : Option String) (year : Int) (source_context : Option Ctx) :
    (Option PlayerMatch × Option Nat) × Store :=
  match find_roster_match db name team position year with
  | some fm =>
    let cn := fm.confidence / 100
    if VECTOR_MATCH_HIGH_CONFIDENCE ≤ cn then
      ((some { fm with match_method := .fuzzy }, none), st)
    else if VECTOR_MATCH_LOW_CONFIDENCE ≤ cn then
      let res := insert_pending_link st name team source_context
        (some fm.source_id) cn "fuzzy"
      ((none, some res.1), res.2)
    else recruitFallback db st name team position year
  | none => recruitFallback db st name team position year

/-- `match_player_with_review`: Tier 1 (deterministic), Tier 2 (vector),
Tier 3 (fuzzy with review band and recruit fallback). Returns the
`(match, pending_link_id)` pair together with the resulting
`pending_links` store. -/
def match_player_with_review (genEmb : String → Option (List ℚ))
    (simByEmb : List ℚ → Nat → List Neighbor) (db : DB) (st : Store)
    (name : String) (team position : Option String) (year : Int)
    (source_context : Option Ctx) (athlete_id : Option String) :
    (Option PlayerMatch × Option Nat) × Store :=
  match deterministicTier db name team year athlete_id with
  | some m => ((some m, none), st)
  | none =>
    match find_vector_match genEmb simByEmb db name team position year with
    | some vm => ((some vm, none), st)
    | none => fuzzyTier db st name team position year source_context

/-! ## Helper lemmas about the tiers -/

theorem map_rosterDetMatch_fields (o : Option RosterRow) (m : PlayerMatch)
    (h : o.map rosterDetMatch = some m) :
    m.confidence = 100 ∧ m.match_method = .deterministic := by
  cases o with
  | none => simp at h
  | some r =>
    have hr : rosterDetMatch r = m := by simpa using h
    subst hr
    exact ⟨rfl, rfl⟩

theorem find_deterministic_match_fields (db : DB) (name team : String) (year : Int)
    (m : PlayerMatch) (h : find_deterministic_match db name team year = some m) :
    m.confidence = 100 ∧ m.match_method = .deterministic :=
  map_rosterDetMatch_fields _ m h

theorem find_deterministic_match_by_athlete_id_fields (db : DB) (athlete_id : String)
    (m : PlayerMatch) (h : find_deterministic_match_by_athlete_id db athlete_id = some m) :
    m.confidence = 100 ∧ m.match_method = .deterministic := by
  unfold find_deterministic_match_by_athlete_id at h
  split at h
  · exact map_rosterDetMatch_fields _ m h
  · simp at h

theorem deterministicTier_fields (db : DB) (name : String) (team : Option String)
    (year : Int) (athlete_id : Option String) (m : PlayerMatch)
    (h : deterministicTier db name team year athlete_id = some m) :
    m.confidence = 100 ∧ m.match_method = .deterministic := by
  unfold deterministicTier at h
  split at h
  next m1 heq =>
    rcases Option.some.inj h with rfl
    split at heq
    · exact find_deterministic_match_by_athlete_id_fields _ _ _ heq
    · simp at heq
  next heq =>
    split at h
    · exact find_deterministic_match_fields _ _ _ _ _ h
    · simp at h

theorem foldl_bestRosterStep_conf (name : String) (l : List RosterRow)
    (acc : ℚ × Option PlayerMatch)
    (hacc : ∀ m, acc.2 = some m → MATCH_THRESHOLD ≤ m.confidence) :
    ∀ m, (l.foldl (bestRosterStep name) acc).2 = some m → MATCH_THRESHOLD ≤ m.confidence := by
  induction l generalizing acc with
  | nil => exact hacc
  | cons r l ih =>
    intro m hm
    refine ih (bestRosterStep name acc r) ?_ m hm
    intro m' hm'
    simp only [bestRosterStep] at hm'
    split at hm'
    next hcond =>
      rcases Option.some.inj hm' with rfl
      exact hcond.2
    next => exact hacc m' hm'

/-- Any match `find_roster_match` returns scored at least `MATCH_THRESHOLD`. -/
theorem find_roster_match_conf (db : DB) (name : String) (team position : Option String)
    (year : Int) (m : PlayerMatch) (h : find_roster_match db name team position year = some m) :
    MATCH_THRESHOLD ≤ m.confidence := by
  unfold find_roster_match at h
  exact foldl_bestRosterStep_conf name _ (0, none) (by intro m' hm'; simp at hm') m h

theorem foldl_bestRecruitStep_conf (name : String) (l : List RecruitRow)
    (acc : ℚ × Option PlayerMatch)
    (hacc : ∀ m, acc.2 = some m → MATCH_THRESHOLD ≤ m.confidence) :
    ∀ m, (l.foldl (bestRecruitStep name) acc).2 = some m → MATCH_THRESHOLD ≤ m.confidence := by
  induction l generalizing acc with
  | nil => exact hacc
  | cons r l ih =>
    intro m hm
    refine ih (bestRecruitStep name acc r) ?_ m hm
    intro m' hm'
    simp only [bestRecruitStep] at hm'
    split at hm'
    next hcond =>
      rcases Option.some.inj hm' with rfl
      exact hcond.2
    next => exact hacc m' hm'

/-- Any match `find_recruit_match` returns scored at least `MATCH_THRESHOLD`. -/
theorem find_recruit_match_conf (db : DB) (name : String) (team position : Option String)
    (year : Option Int) (m : PlayerMatch)
    (h : find_recruit_match db name team position year = some m) :
    MATCH_THRESHOLD ≤ m.confidence := by
  unfold find_recruit_match at h
  exact foldl_bestRecruitStep_conf name _ (0, none) (by intro m' hm'; simp at hm') m h

/-! ## Claim theorems -/

/-- C1. Tier precedence: whenever the deterministic tier of
`match_player_with_review` produces a match — via the athlete-id linkage
when `athlete_id` is supplied, or via the exact case-insensitive
name+team+year lookup when `team` is supplied — the cascade returns that
match with confidence 100 and method deterministic, paired with no
pending-link id and an unchanged pending-links store.  The result is
stated for arbitrary `genEmb` and `simByEmb`: it does not depend on the
embedding service or the neighbor index in any way, so the vector tier
(and the fuzzy tier, which would be the only writer of the store) is
never evaluated. -/
theorem C1_tier_precedence (genEmb : String → Option (List ℚ))
    (simByEmb : List ℚ → Nat → List Neighbor) (db : DB) (st : Store)
    (name : String) (team position : Option String) (year : Int)
    (source_context : Option Ctx) (athlete_id : Option String) (m : PlayerMatch)
    (hdet : deterministicTier db name team year athlete_id = some m) :
    match_player_with_review genEmb simByEmb db st name team position year
        source_context athlete_id = ((some m, none), st)
      ∧ m.confidence = 100 ∧ m.match_method = .deterministic := by
  refine ⟨?_, deterministicTier_fields db name team year athlete_id m hdet⟩
  unfold match_player_with_review
  rw [hdet]

theorem C1_tier_precedence_witness :
    (deterministicTier
        { roster := [{ id := "7", first_name := "Arch", last_name := "Manning",
                       team := "Texas", position := some "QB", year := 2025 }],
          recruits := [] }
        "arch MANNING" (some "Texas") 2025 none
      = some { source := .roster, source_id := "7", first_name := "Arch",
               last_name := "Manning", team := "Texas", position := some "QB",
               year := some 2025, confidence := 100, match_method := .deterministic })
    ∧ (match_player_with_review (fun _ => some [1]) (fun _ _ => [])
        { roster := [{ id := "7", first_name := "Arch", last_name := "Manning",
                       team := "Texas", position := some "QB", year := 2025 }],
          recruits := [] }
        { pending_links := [], next_id := 1 }
        "arch MANNING" (some "Texas") (some "QB") 2025 none none
      = ((some { source := .roster, source_id := "7", first_name := "Arch",
                 last_name := "Manning", team := "Texas", position := some "QB",
                 year := some 2025, confidence := 100, match_method := .deterministic },
          none), { pending_links := [], next_id := 1 })) := by
  have hdet : deterministicTier
      { roster := [{ id := "7", first_name := "Arch", last_name := "Manning",
                     team := "Texas", position := some "QB", year := 2025 }],
        recruits := [] }
      "arch MANNING" (some "Texas") 2025 none
    = some { source := .roster, source_id := "7", first_name := "Arch",
             last_name := "Manning", team := "Texas", position := some "QB",
             year := some 2025, confidence := 100, match_method := .deterministic } := by
    simp [deterministicTier, optTruthy, find_deterministic_match, rosterDetMatch,
      pyLower, List.find?]
  exact ⟨hdet, (C1_tier_precedence (fun _ => some [1]) (fun _ _ => []) _ _
    "arch MANNING" (some "Texas") (some "QB") 2025 none none _ hdet).1⟩

/-- C2. Review band: when the cascade reaches the fuzzy tier (no
deterministic match, no vector match) and the best roster candidate's
fuzzy score `s` satisfies `80 ≤ s < 92`, no match is accepted: exactly one
pending link is appended, carrying `match_score = s / 100`,
`match_method = "fuzzy"` and the supplied `source_context`, and the
returned pair is `(none, that link's id)`.  (`source_context` is required
to not be the empty dict, which Python truthiness would store as NULL.) -/
theorem C2_review_band (genEmb : String → Option (List ℚ))
    (simByEmb : List ℚ → Nat → List Neighbor) (db : DB) (st : Store)
    (name : String) (team position : Option String) (year : Int)
    (source_context : Option Ctx) (athlete_id : Option String) (fm : PlayerMatch)
    (hdet : deterministicTier db name team year athlete_id = none)
    (hvec : find_vector_match genEmb simByEmb db name team position year = none)
    (hfm : find_roster_match db name team position year = some fm)
    (hlo : 80 ≤ fm.confidence) (hhi : fm.confidence < 92)
    (hctx : source_context ≠ some ([] : Ctx)) :
    match_player_with_review genEmb simByEmb db st name team position year
        source_context athlete_id
      = ((none, some st.next_id),
         { pending_links := st.pending_links ++
             [{ id := st.next_id, source_name := name, source_team := team,
                source_context := source_context,
                candidate_roster_id := some fm.source_id,
                match_score := fm.confidence / 100, match_method := "fuzzy" }],
           next_id := st.next_id + 1 }) := by
  have hnot : ¬ VECTOR_MATCH_HIGH_CONFIDENCE ≤ fm.confidence / 100 := by
    unfold VECTOR_MATCH_HIGH_CONFIDENCE
    intro h
    linarith
  have hyes : VECTOR_MATCH_LOW_CONFIDENCE ≤ fm.confidence / 100 := by
    unfold VECTOR_MATCH_LOW_CONFIDENCE
    linarith
  have hstore : (if ctxTruthy source_context then source_context else none)
      = source_context := by
    cases source_context with
    | none => simp [ctxTruthy]
    | some c =>
      cases c with
      | nil => exact absurd rfl hctx
      | cons p c => simp [ctxTruthy]
  unfold match_player_with_review
  rw [hdet, hvec]
  unfold fuzzyTier
  rw [hfm]
  simp only [hnot, if_false, hyes, if_true, insert_pending_link, hstore]

/-- Fixture for the C2 witness: one roster row scoring 1000/11 (~90.9)
against the query "ab cd". -/
def rowC2 : RosterRow :=
  { id := "9", first_name := "ab", last_name := "cde", team := "Texas",
    position := some "QB", year := 2025 }

def dbC2 : DB := { roster := [rowC2], recruits := [] }

def fmC2 : PlayerMatch :=
  { source := .roster, source_id := "9", first_name := "ab", last_name := "cde",
    team := "Texas", position := some "QB", year := some 2025,
    confidence := 1000 / 11, match_method := .fuzzy }

def linkC2 : PendingLink :=
  { id := 4, source_name := "ab cd", source_team := none,
    source_context := some [("url", "x")], candidate_roster_id := some "9",
    match_score := fmC2.confidence / 100, match_method := "fuzzy" }

theorem C2_review_band_witness :
    (deterministicTier dbC2 "ab cd" none 2025 none = none)
    ∧ (find_vector_match (fun _ => none) (fun _ _ => []) dbC2 "ab cd" none none 2025 = none)
    ∧ (find_roster_match dbC2 "ab cd" none none 2025 = some fmC2)
    ∧ ((80 : ℚ) ≤ fmC2.confidence) ∧ (fmC2.confidence < 92)
    ∧ (match_player_with_review (fun _ => none) (fun _ _ => []) dbC2
        { pending_links := [], next_id := 4 }
        "ab cd" none none 2025 (some [("url", "x")]) none
      = ((none, some 4), { pending_links := [linkC2], next_id := 5 })) := by
  have hdet : deterministicTier dbC2 "ab cd" none 2025 none = none := by
    simp [deterministicTier, optTruthy]
  have hvec : find_vector_match (fun _ => none) (fun _ _ => []) dbC2
      "ab cd" none none 2025 = none := by
    simp [find_vector_match]
  have hfm : find_roster_match dbC2 "ab cd" none none 2025 = some fmC2 := by
    simp [find_roster_match, dbC2, rowC2, fmC2, rosterFilter, optTruthy, bestRosterStep,
      rosterFuzzyMatch, fuzzy_match_name, tokenSortSimilarity, tokenSortJoined, pyStrip,
      pyLower, stripChars, wsTokens, wsTokensAux, isWs, List.mergeSort, lexLe, indelScore,
      lcsLen, List.intercalate, MATCH_THRESHOLD]
    norm_num
  have h80 : (80 : ℚ) ≤ fmC2.confidence := by norm_num [fmC2]
  have h92 : fmC2.confidence < 92 := by norm_num [fmC2]
  refine ⟨hdet, hvec, hfm, h80, h92, ?_⟩
  exact C2_review_band (fun _ => none) (fun _ _ => []) dbC2
    { pending_links := [], next_id := 4 } "ab cd" none none 2025
    (some [("url", "x")]) none fmC2 hdet hvec hfm h80 h92 (by simp)

/-- C5. Recruit fallback asymmetry: when no tier before it fires and no
roster candidate reaches the fuzzy threshold (`find_roster_match` returns
none, so no pending link is created), the cascade scores the
recruit-prospect pool with the same fuzzy metric (`find_recruit_match`,
filtered by team/position/year) and accepts its best candidate directly
with method fuzzy — every returned recruit candidate scores at least 80,
and there is no review band: the store is returned unchanged even when
the score lies in `[80, 92)`. -/
theorem C5_recruit_fallback (genEmb : String → Option (List ℚ))
    (simByEmb : List ℚ → Nat → List Neighbor) (db : DB) (st : Store)
    (name : String) (team position : Option String) (year : Int)
    (source_context : Option Ctx) (athlete_id : Option String) (rm : PlayerMatch)
    (hdet : deterministicTier db name team year athlete_id = none)
    (hvec : find_vector_match genEmb simByEmb db name team position year = none)
    (hro : find_roster_match db name team position year = none)
    (hrm : find_recruit_match db name team position (some year) = some rm) :
    MATCH_THRESHOLD ≤ rm.confidence
      ∧ match_player_with_review genEmb simByEmb db st name team position year
          source_context athlete_id
        = ((some { rm with match_method := .fuzzy }, none), st) := by
  have hconf := find_recruit_match_conf db name team position (some year) rm hrm
  refine ⟨hconf, ?_⟩
  unfold match_player_with_review
  rw [hdet, hvec]
  unfold fuzzyTier
  rw [hro]
  unfold recruitFallback
  rw [hrm]
  simp only [hconf, if_true]

/-- Fixture for the C5 witness: an empty roster and one recruit scoring
1000/11 (~90.9, inside the would-be review band) for the query "ab cd". -/
def recC5 : RecruitRow :=
  { id := "42", name := "ab cde", committed_to := some "Texas",
    position := some "WR", recruiting_year := some 2025, athlete_id := none }

def dbC5 : DB := { roster := [], recruits := [recC5] }

def rmC5 : PlayerMatch :=
  { source := .recruit, source_id := "42", first_name := "ab", last_name := "cde",
    team := "Texas", position := some "WR", year := some 2025,
    confidence := 1000 / 11, match_method := .fuzzy }

theorem C5_recruit_fallback_witness :
    (deterministicTier dbC5 "ab cd" none 2025 none = none)
    ∧ (find_vector_match (fun _ => none) (fun _ _ => []) dbC5 "ab cd" none none 2025 = none)
    ∧ (find_roster_match dbC5 "ab cd" none none 2025 = none)
    ∧ (find_recruit_match dbC5 "ab cd" none none (some 2025) = some rmC5)
    ∧ ((80 : ℚ) ≤ rmC5.confidence) ∧ (rmC5.confidence < 92)
    ∧ (match_player_with_review (fun _ => none) (fun _ _ => []) dbC5
        { pending_links := [], next_id := 1 } "ab cd" none none 2025 none none
      = ((some rmC5, none), { pending_links := [], next_id := 1 })) := by
  have hdet : deterministicTier dbC5 "ab cd" none 2025 none = none := by
    simp [deterministicTier, optTruthy]
  have hvec : find_vector_match (fun _ => none) (fun _ _ => []) dbC5
      "ab cd" none none 2025 = none := by
    simp [find_vector_match]
  have hro : find_roster_match dbC5 "ab cd" none none 2025 = none := by
    simp [find_roster_match, dbC5]
  have hrm : find_recruit_match dbC5 "ab cd" none none (some 2025) = some rmC5 := by
    simp [find_recruit_match, dbC5, recC5, rmC5, recruitFilter, optTruthy, intTruthy,
      bestRecruitStep, recruitFuzzyMatch, pySplitMax1, pyOr, fuzzy_match_name,
      tokenSortSimilarity, tokenSortJoined, pyStrip, pyLower, stripChars, wsTokens,
      wsTokensAux, isWs, List.mergeSort, lexLe, indelScore, lcsLen, List.intercalate,
      MATCH_THRESHOLD]
    norm_num
  refine ⟨hdet, hvec, hro, hrm, by norm_num [rmC5], by norm_num [rmC5], ?_⟩
  have h := C5_recruit_fallback (fun _ => none) (fun _ _ => []) dbC5
    { pending_links := [], next_id := 1 } "ab cd" none none 2025 none none
    rmC5 hdet hvec hro hrm
  exact h.2

/-- C6. Tier 2 failure containment: if embedding generation raises on
every input (`genEmb` constantly `none`), `find_vector_match` returns
`none` instead of propagating, and — when the deterministic tier did not
already fire — `match_player_with_review` still completes, its outcome
being exactly the fuzzy tier's (roster fuzzy band plus recruit fallback,
an Accepted/Deferred/Rejected result): the embedding service being down
never fails the resolution. -/
theorem C6_embedding_failure (genEmb : String → Option (List ℚ))
    (simByEmb : List ℚ → Nat → List Neighbor) (db : DB) (st : Store)
    (name : String) (team position : Option String) (year : Int)
    (source_context : Option Ctx) (athlete_id : Option String)
    (hfail : ∀ s, genEmb s = none)
    (hdet : deterministicTier db name team year athlete_id = none) :
    find_vector_match genEmb simByEmb db name team position year = none
      ∧ match_player_with_review genEmb simByEmb db st name team position year
          source_context athlete_id
        = fuzzyTier db st name team position year source_context := by
  have hvec : find_vector_match genEmb simByEmb db name team position year = none := by
    unfold find_vector_match
    simp only [hfail]
  refine ⟨hvec, ?_⟩
  unfold match_player_with_review
  rw [hdet, hvec]

theorem C6_embedding_failure_witness :
    ((∀ s : String, (fun _ : String => (none : Option (List ℚ))) s = none)
      ∧ deterministicTier dbC2 "ab cd" none 2025 none = none)
    ∧ (find_vector_match (fun _ => none) (fun _ _ => []) dbC2 "ab cd" none none 2025 = none
      ∧ match_player_with_review (fun _ => none) (fun _ _ => []) dbC2
          { pending_links := [], next_id := 4 } "ab cd" none none 2025
          (some [("url", "x")]) none
        = fuzzyTier dbC2 { pending_links := [], next_id := 4 } "ab cd" none none 2025
            (some [("url", "x")])) := by
  have hdet : deterministicTier dbC2 "ab cd" none 2025 none = none := by
    simp [deterministicTier, optTruthy]
  exact ⟨⟨fun _ => rfl, hdet⟩,
    C6_embedding_failure (fun _ => none) (fun _ _ => []) dbC2
      { pending_links := [], next_id := 4 } "ab cd" none none 2025
      (some [("url", "x")]) none (fun _ => rfl) hdet⟩

/-- C7. Resolve result shape: for every input and datastore,
`match_player_with_review` never returns both a match and a pending-link
id (at most one component of the pair is non-null), and both are null
precisely when every tier failed to fire: no deterministic match, no
vector match, no roster fuzzy candidate at threshold, and no recruit
candidate at threshold (outright rejection). -/
theorem C7_result_shape (genEmb : String → Option (List ℚ))
    (simByEmb : List ℚ → Nat → List Neighbor) (db : DB) (st : Store)
    (name : String) (team position : Option String) (year : Int)
    (source_context : Option Ctx) (athlete_id : Option String) :
    ((match_player_with_review genEmb simByEmb db st name team position year
        source_context athlete_id).1.1 = none
      ∨ (match_player_with_review genEmb simByEmb db st name team position year
        source_context athlete_id).1.2 = none)
    ∧ ((match_player_with_review genEmb simByEmb db st name team position year
          source_context athlete_id).1 = (none, none)
        ↔ deterministicTier db name team year athlete_id = none
          ∧ find_vector_match genEmb simByEmb db name team position year = none
          ∧ find_roster_match db name team position year = none
          ∧ find_recruit_match db name team position (some year) = none) := by
  unfold match_player_with_review
  cases hdet : deterministicTier db name team year athlete_id with
  | some m =>
    refine ⟨Or.inr rfl, ?_⟩
    constructor
    · intro h
      exact absurd (congrArg Prod.fst h) (by simp)
    · rintro ⟨h, -⟩
      exact absurd h (by simp)
  | none =>
    cases hvec : find_vector_match genEmb simByEmb db name team position year with
    | some vm =>
      refine ⟨Or.inr rfl, ?_⟩
      constructor
      · intro h
        exact absurd (congrArg Prod.fst h) (by simp)
      · rintro ⟨-, h, -⟩
        exact absurd h (by simp)
    | none =>
      unfold fuzzyTier
      cases hro : find_roster_match db name team position year with
      | some fm =>
        have hconf := find_roster_match_conf db name team position year fm hro
        have hlow : VECTOR_MATCH_LOW_CONFIDENCE ≤ fm.confidence / 100 := by
          unfold MATCH_THRESHOLD at hconf
          unfold VECTOR_MATCH_LOW_CONFIDENCE
          linarith
        dsimp only
        by_cases hhigh : VECTOR_MATCH_HIGH_CONFIDENCE ≤ fm.confidence / 100
        · rw [if_pos hhigh]
          refine ⟨Or.inr rfl, ?_⟩
          constructor
          · intro h
            exact absurd (congrArg Prod.fst h) (by simp)
          · rintro ⟨-, -, h, -⟩
            exact absurd h (by simp)
        · rw [if_neg hhigh, if_pos hlow]
          refine ⟨Or.inl rfl, ?_⟩
          constructor
          · intro h
            exact absurd (congrArg Prod.snd h) (by simp)
          · rintro ⟨-, -, h, -⟩
            exact absurd h (by simp)
      | none =>
        unfold recruitFallback
        cases hrm : find_recruit_match db name team position (some year) with
        | some rm =>
          have hconf := find_recruit_match_conf db name team position (some year) rm hrm
          dsimp only
          rw [if_pos hconf]
          refine ⟨Or.inr rfl, ?_⟩
          constructor
          · intro h
            exact absurd (congrArg Prod.fst h) (by simp)
          · rintro ⟨-, -, -, h⟩
            exact absurd h (by simp)
        | none =>
          exact ⟨Or.inl rfl, by simp⟩

/-- The acceptance predicate of the Tier-2 neighbor scan: the team gate
passes and the similarity clears `VECTOR_MATCH_HIGH_CONFIDENCE`. -/
def neighborAccept (team : Option String) (n : Neighbor) : Bool :=
  !teamMismatch team ((pySplit " | " n.identity_text).get? 2)
    && decide (VECTOR_MATCH_HIGH_CONFIDENCE ≤ n.similarity)

/-- When every neighbor's roster id resolves, the scan returns exactly the
first neighbor satisfying `neighborAccept`, turned into a vector match. -/
theorem vectorScan_eq_find (db : DB) (team : Option String) (ns : List Neighbor)
    (hroster : ∀ n ∈ ns, (db.roster.find? fun r => r.id == n.roster_id).isSome = true) :
    vectorScan db team ns
      = (ns.find? (neighborAccept team)).bind fun n =>
          (db.roster.find? fun r => r.id == n.roster_id).map fun row =>
            rosterVectorMatch row n.similarity := by
  induction ns with
  | nil => simp [vectorScan]
  | cons c rest ih =>
    have hrest : ∀ n ∈ rest, (db.roster.find? fun r => r.id == n.roster_id).isSome = true :=
      fun n hn => hroster n (List.mem_cons_of_mem _ hn)
    rw [vectorScan, List.find?_cons]
    by_cases hmm : teamMismatch team ((pySplit " | " c.identity_text).get? 2) = true
    · have hp : neighborAccept team c = false := by
        unfold neighborAccept
        rw [hmm]
        rfl
      rw [if_pos hmm, hp]
      simpa using ih hrest
    · rw [if_neg hmm]
      by_cases hsim : VECTOR_MATCH_HIGH_CONFIDENCE ≤ c.similarity
      · have hp : neighborAccept team c = true := by
          unfold neighborAccept
          rw [Bool.eq_false_iff.mpr hmm]
          simpa using hsim
        rw [if_pos hsim, hp]
        obtain ⟨row, hrow⟩ := Option.isSome_iff_exists.mp
          (hroster c (List.mem_cons_self c rest))
        simp [hrow]
      · have hp : neighborAccept team c = false := by
          unfold neighborAccept
          simpa using fun _ => hsim
        rw [if_neg hsim, hp]
        simpa using ih hrest

/-- C3. Vector tier acceptance: for a query reaching Tier 2 whose
embedding succeeds and whose neighbor query returns the top-5 list `ns`
(descending by similarity, at most five entries, every neighbor's roster
id resolving), `find_vector_match` returns precisely the first neighbor
that passes the team gate and has similarity ≥ 0.92
(`VECTOR_MATCH_HIGH_CONFIDENCE`), as a match with method vector and
confidence `similarity * 100` (`rosterVectorMatch`); when no neighbor
clears the threshold (`find?` returns none) the result is `none` and the
cascade falls through to the fuzzy tier. -/
theorem C3_vector_acceptance (genEmb : String → Option (List ℚ))
    (simByEmb : List ℚ → Nat → List Neighbor) (db : DB)
    (name : String) (team position : Option String) (year : Int)
    (emb : List ℚ) (ns : List Neighbor)
    (hgen : genEmb (build_identity_text
      { name := name, team := pyOr team "Unknown", year := year,
        position := position }) = some emb)
    (hns : simByEmb emb 5 = ns)
    (hsort : ns.Pairwise fun a b => b.similarity ≤ a.similarity)
    (hlen : ns.length ≤ 5)
    (hroster : ∀ n ∈ ns, (db.roster.find? fun r => r.id == n.roster_id).isSome = true) :
    find_vector_match genEmb simByEmb db name team position year
      = (ns.find? (neighborAccept team)).bind fun n =>
          (db.roster.find? fun r => r.id == n.roster_id).map fun row =>
            rosterVectorMatch row n.similarity := by
  unfold find_vector_match
  simp only [hgen, hns]
  cases ns with
  | nil => simp
  | cons c rest =>
    simpa using vectorScan_eq_find db team (c :: rest) hroster

/-- Fixtures for the C3 witness: a neighbor of similarity 0.95 for team
Texas ahead of one of similarity 0.93 for team Oklahoma. -/
def rowC3 : RosterRow :=
  { id := "100", first_name := "Arch", last_name := "Manning", team := "Texas",
    position := some "QB", year := 2025 }

def dbC3 : DB := { roster := [rowC3], recruits := [] }

def nbC3 : Neighbor :=
  { roster_id := "100", identity_text := "Arch Manning | QB | Texas | 2025",
    similarity := 95 / 100 }

def nbC3b : Neighbor :=
  { roster_id := "100", identity_text := "Art Mann | QB | Oklahoma | 2025",
    similarity := 93 / 100 }

theorem C3_vector_acceptance_witness :
    (((fun _ : String => some [(1 : ℚ)]) (build_identity_text
      { name := "Arch Manning", team := pyOr (some "Texas") "Unknown", year := 2025,
        position := some "QB" }) = some [(1 : ℚ)])
      ∧ ((fun _ : List ℚ => fun _ : Nat => [nbC3, nbC3b]) [(1 : ℚ)] 5 = [nbC3, nbC3b])
      ∧ ([nbC3, nbC3b].Pairwise fun a b => b.similarity ≤ a.similarity)
      ∧ ([nbC3, nbC3b].length ≤ 5)
      ∧ (∀ n ∈ [nbC3, nbC3b],
          (dbC3.roster.find? fun r => r.id == n.roster_id).isSome = true))
    ∧ find_vector_match (fun _ => some [(1 : ℚ)]) (fun _ _ => [nbC3, nbC3b]) dbC3
        "Arch Manning" (some "Texas") (some "QB") 2025
      = some (rosterVectorMatch rowC3 (95 / 100))
    ∧ (rosterVectorMatch rowC3 (95 / 100)).confidence = 95
    ∧ (rosterVectorMatch rowC3 (95 / 100)).match_method = .vector := by
  have hsort : [nbC3, nbC3b].Pairwise fun a b => b.similarity ≤ a.similarity := by
    simp [nbC3, nbC3b]
    norm_num
  have hroster : ∀ n ∈ [nbC3, nbC3b],
      (dbC3.roster.find? fun r => r.id == n.roster_id).isSome = true := by
    decide
  have h := C3_vector_acceptance (fun _ => some [(1 : ℚ)]) (fun _ _ => [nbC3, nbC3b])
    dbC3 "Arch Manning" (some "Texas") (some "QB") 2025 [(1 : ℚ)] [nbC3, nbC3b]
    rfl rfl hsort (by simp) hroster
  refine ⟨⟨rfl, rfl, hsort, by simp, hroster⟩, ?_, by norm_num [rosterVectorMatch], rfl⟩
  rw [h]
  have hacc : neighborAccept (some "Texas") nbC3 = true := by
    simp [neighborAccept, nbC3, teamMismatch, optTruthy, pySplit, splitSepGo, pyLower,
      VECTOR_MATCH_HIGH_CONFIDENCE]
    norm_num
  rw [List.find?_cons, hacc]
  simp [dbC3, rowC3, nbC3]

/-- C4. Vector tier team gate: a neighbor whose embedded team (the third
" | "-field of its stored identity text) mismatches the supplied query
team case-insensitively is skipped by the scan no matter its similarity
(first conjunct: deleting it from any position of the neighbor list does
not change the result — there is no similarity hypothesis, so this covers
similarity ≥ 0.99); consequently any match `vectorScan` or
`find_vector_match` returns originates from a neighbor that passes the
team gate (second and third conjuncts). -/
theorem C4_team_gate (db : DB) :
    (∀ (team : Option String) (n : Neighbor) (pre post : List Neighbor),
      teamMismatch team ((pySplit " | " n.identity_text).get? 2) = true →
      vectorScan db team (pre ++ n :: post) = vectorScan db team (pre ++ post))
    ∧ (∀ (team : Option String) (ns : List Neighbor) (m : PlayerMatch),
        vectorScan db team ns = some m →
        ∃ n ∈ ns,
          teamMismatch team ((pySplit " | " n.identity_text).get? 2) = false
          ∧ VECTOR_MATCH_HIGH_CONFIDENCE ≤ n.similarity
          ∧ ∃ row, (db.roster.find? fun r => r.id == n.roster_id) = some row
              ∧ m = rosterVectorMatch row n.similarity)
    ∧ (∀ (genEmb : String → Option (List ℚ)) (simByEmb : List ℚ → Nat → List Neighbor)
        (name : String) (team position : Option String) (year : Int)
        (emb : List ℚ) (m : PlayerMatch),
        genEmb (build_identity_text
          { name := name, team := pyOr team "Unknown", year := year,
            position := position }) = some emb →
        find_vector_match genEmb simByEmb db name team position year = some m →
        ∃ n ∈ simByEmb emb 5,
          teamMismatch team ((pySplit " | " n.identity_text).get? 2) = false
          ∧ VECTOR_MATCH_HIGH_CONFIDENCE ≤ n.similarity
          ∧ ∃ row, (db.roster.find? fun r => r.id == n.roster_id) = some row
              ∧ m = rosterVectorMatch row n.similarity) := by
  have hskip : ∀ (team : Option String) (n : Neighbor) (pre post : List Neighbor),
      teamMismatch team ((pySplit " | " n.identity_text).get? 2) = true →
      vectorScan db team (pre ++ n :: post) = vectorScan db team (pre ++ post) := by
    intro team n pre post hmm
    induction pre with
    | nil =>
      simp only [List.nil_append]
      rw [vectorScan, if_pos hmm]
    | cons p pre ih =>
      simp only [List.cons_append]
      rw [vectorScan]
      conv_rhs => rw [vectorScan]
      by_cases h1 : teamMismatch team ((pySplit " | " p.identity_text).get? 2) = true
      · rw [if_pos h1, if_pos h1]
        exact ih
      · rw [if_neg h1, if_neg h1]
        by_cases h2 : VECTOR_MATCH_HIGH_CONFIDENCE ≤ p.similarity
        · rw [if_pos h2, if_pos h2]
          cases hrow : db.roster.find? fun r => r.id == p.roster_id with
          | some row => rfl
          | none => exact ih
        · rw [if_neg h2, if_neg h2]
          exact ih
  have hsrc : ∀ (team : Option String) (ns : List Neighbor) (m : PlayerMatch),
      vectorScan db team ns = some m →
      ∃ n ∈ ns,
        teamMismatch team ((pySplit " | " n.identity_text).get? 2) = false
        ∧ VECTOR_MATCH_HIGH_CONFIDENCE ≤ n.similarity
        ∧ ∃ row, (db.roster.find? fun r => r.id == n.roster_id) = some row
            ∧ m = rosterVectorMatch row n.similarity := by
    intro team ns
    induction ns with
    | nil => intro m h; rw [vectorScan] at h; exact absurd h (by simp)
    | cons c rest ih =>
      intro m h
      rw [vectorScan] at h
      by_cases h1 : teamMismatch team ((pySplit " | " c.identity_text).get? 2) = true
      · rw [if_pos h1] at h
        obtain ⟨n, hn, hrest⟩ := ih m h
        exact ⟨n, List.mem_cons_of_mem _ hn, hrest⟩
      · rw [if_neg h1] at h
        by_cases h2 : VECTOR_MATCH_HIGH_CONFIDENCE ≤ c.similarity
        · rw [if_pos h2] at h
          cases hrow : db.roster.find? fun r => r.id == c.roster_id with
          | some row =>
            rw [hrow] at h
            exact ⟨c, List.mem_cons_self c rest, Bool.eq_false_iff.mpr h1, h2, row, hrow,
              (Option.some.inj h).symm⟩
          | none =>
            rw [hrow] at h
            obtain ⟨n, hn, hrest⟩ := ih m h
            exact ⟨n, List.mem_cons_of_mem _ hn, hrest⟩
        · rw [if_neg h2] at h
          obtain ⟨n, hn, hrest⟩ := ih m h
          exact ⟨n, List.mem_cons_of_mem _ hn, hrest⟩
  refine ⟨hskip, hsrc, ?_⟩
  intro genEmb simByEmb name team position year emb m hgen h
  unfold find_vector_match at h
  simp only [hgen] at h
  by_cases he : (simByEmb emb 5).isEmpty = true
  · rw [if_pos he] at h
    exact absurd h (by simp)
  · rw [if_neg he] at h
    exact hsrc team (simByEmb emb 5) m h

/-- A mismatching neighbor at similarity 0.99, used by the C4 witness. -/
def nbC4 : Neighbor :=
  { roster_id := "100", identity_text := "Art Mann | QB | Oklahoma | 2025",
    similarity := 99 / 100 }

/-- Witness for C4: a mismatching neighbor at similarity 0.99 is skipped
and the scan of just that neighbor yields no match. -/
theorem C4_team_gate_witness :
    (teamMismatch (some "Texas")
        ((pySplit " | " "Art Mann | QB | Oklahoma | 2025").get? 2) = true)
    ∧ vectorScan dbC3 (some "Texas") ([] ++ nbC4 :: [])
      = vectorScan dbC3 (some "Texas") ([] ++ []) := by
  have hmm : teamMismatch (some "Texas")
      ((pySplit " | " "Art Mann | QB | Oklahoma | 2025").get? 2) = true := by
    simp [teamMismatch, optTruthy, pySplit, splitSepGo, pyLower]
  exact ⟨hmm, (C4_team_gate dbC3).1 (some "Texas") nbC4 [] [] (by simpa [nbC4] using hmm)⟩

/-! ## Parsing of stored identity texts (for C9 and C10) -/

/-- The separator " | " is not a prefix of `c :: l` when `l` is pipe-free. -/
theorem sepNotPrefix (c : Char) (l : List Char) (h : ¬ '|' ∈ l) :
    ([' ', '|', ' '].isPrefixOf (c :: l)) = false := by
  cases l with
  | nil => simp [List.isPrefixOf]
  | cons d l' =>
    have hd : ('|' == d) = false := by
      have : d ≠ '|' := fun hdd => h (by simp [hdd])
      simp [this.symm]
    simp [List.isPrefixOf, hd]

/-- The separator " | " is not a prefix of `c :: (l ++ ' ' :: rest)` when
`l` is pipe-free (the char after `l` is the separator's own ' '). -/
theorem sepNotPrefix2 (c : Char) (l rest : List Char) (h : ¬ '|' ∈ l) :
    ([' ', '|', ' '].isPrefixOf (c :: (l ++ ' ' :: rest))) = false := by
  cases l with
  | nil => simp [List.isPrefixOf]
  | cons d l' =>
    have hd : ('|' == d) = false := by
      have : d ≠ '|' := fun hdd => h (by simp [hdd])
      simp [this.symm]
    simp [List.isPrefixOf, hd]

/-- Scanning a pipe-free field with no separator left returns one field. -/
theorem splitSepGo_noSep (f : List Char) (h : ¬ '|' ∈ f) (cur : List Char) :
    splitSepGo ' ' ['|', ' '] cur f = [cur.reverse ++ f] := by
  induction f generalizing cur with
  | nil => simp [splitSepGo]
  | cons c f ih =>
    have hf : ¬ '|' ∈ f := fun hx => h (List.mem_cons_of_mem _ hx)
    rw [splitSepGo, sepNotPrefix c f hf]
    simp only [Bool.false_eq_true, if_false]
    rw [ih hf]
    simp

/-- Scanning a pipe-free field followed by " | " emits the field and
continues after the separator. -/
theorem splitSepGo_sep (f rest cur : List Char) (h : ¬ '|' ∈ f) :
    splitSepGo ' ' ['|', ' '] cur (f ++ ' ' :: '|' :: ' ' :: rest)
      = (cur.reverse ++ f) :: splitSepGo ' ' ['|', ' '] [] rest := by
  induction f generalizing cur with
  | nil =>
    rw [List.nil_append, splitSepGo]
    simp [List.isPrefixOf]
  | cons c f ih =>
    have hf : ¬ '|' ∈ f := fun hx => h (List.mem_cons_of_mem _ hx)
    rw [List.cons_append, splitSepGo, sepNotPrefix2 c f _ hf]
    simp only [Bool.false_eq_true, if_false]
    rw [ih (c :: cur) hf]
    simp

/-- Splitting the " | "-join of three pipe-free fields recovers them. -/
theorem splitSepGo_three (nm tm ys : List Char)
    (h1 : ¬ '|' ∈ nm) (h2 : ¬ '|' ∈ tm) (h3 : ¬ '|' ∈ ys) :
    splitSepGo ' ' ['|', ' '] []
        (nm ++ ' ' :: '|' :: ' ' :: (tm ++ ' ' :: '|' :: ' ' :: ys))
      = [nm, tm, ys] := by
  rw [splitSepGo_sep nm _ [] h1, splitSepGo_sep tm _ [] h2, splitSepGo_noSep ys h3 []]
  simp

/-- The identity text of a query with neither position nor hometown is
exactly `name ++ " | " ++ team ++ " | " ++ str(year)` at character level. -/
theorem build_identity_text_plain (nm tm : String) (yr : Int) :
    (build_identity_text { name := nm, team := tm, year := yr }).data
      = nm.data ++ ' ' :: '|' :: ' ' :: (tm.data ++ ' ' :: '|' :: ' ' :: (toString yr).data) := by
  unfold build_identity_text pyJoin
  simp [optTruthy, List.intercalate, List.intersperse]

/-- C10 (implicit). Team extraction from identity text: `find_vector_match`
takes a neighbor's team to be the third " | "-field of its stored identity
text, so for a neighbor indexed without a position (fields
name | team | year) the third field is the year rendered as a string
(first conjunct); hence, when a team filter `t` is supplied and `t`
differs case-insensitively from that year string, the Tier-2 scan skips
the neighbor (second conjunct) — even under the hypothesis `hsame` that
the neighbor's actual embedded team equals the query team
case-insensitively, and whatever its similarity. -/
theorem C10_year_read_as_team (db : DB) (t nm tm : String) (yr : Int)
    (n : Neighbor) (rest : List Neighbor)
    (hid : n.identity_text = build_identity_text { name := nm, team := tm, year := yr })
    (hnm : ¬ '|' ∈ nm.data) (htm : ¬ '|' ∈ tm.data) (hyr : ¬ '|' ∈ (toString yr).data)
    (hyne : (toString yr).data ≠ [])
    (ht : t.data ≠ [])
    (hdiff : pyLower t ≠ pyLower (toString yr))
    (hsame : pyLower t = pyLower tm) :
    ((pySplit " | " n.identity_text).get? 2 = some (toString yr))
    ∧ vectorScan db (some t) (n :: rest) = vectorScan db (some t) rest := by
  obtain ⟨nml⟩ := nm
  obtain ⟨tml⟩ := tm
  have hparts : pySplit " | " n.identity_text = [⟨nml⟩, ⟨tml⟩, toString yr] := by
    rw [hid]
    have hdef : pySplit " | " (build_identity_text { name := ⟨nml⟩, team := ⟨tml⟩, year := yr })
        = (splitSepGo ' ' ['|', ' '] []
            (build_identity_text { name := ⟨nml⟩, team := ⟨tml⟩, year := yr }).data).map
          fun l => ⟨l⟩ := rfl
    rw [hdef, build_identity_text_plain ⟨nml⟩ ⟨tml⟩ yr]
    generalize hys : toString yr = ys
    obtain ⟨ysl⟩ := ys
    rw [splitSepGo_three nml tml ysl hnm htm (by rw [hys] at hyr; exact hyr)]
    simp
  have hget : (pySplit " | " n.identity_text).get? 2 = some (toString yr) := by
    rw [hparts]
    rfl
  refine ⟨hget, ?_⟩
  have hmm : teamMismatch (some t) ((pySplit " | " n.identity_text).get? 2) = true := by
    rw [hget]
    obtain ⟨tl⟩ := t
    unfold teamMismatch optTruthy
    have h1 : (List.isEmpty tl) = false := by
      cases tl with
      | nil => exact absurd rfl ht
      | cons a l => rfl
    have h2 : (List.isEmpty (toString yr).data) = false := by
      cases hc : (toString yr).data with
      | nil => exact absurd hc hyne
      | cons a l => rfl
    simp only [Option.getD_some, h1, h2, Bool.not_false, Bool.true_and]
    simpa using hdiff
  rw [vectorScan, if_pos hmm]

/-- Fixture for the C10 witness: a neighbor whose identity text was built
without a position, for the actual team Texas, at similarity 0.99. -/
def nbC10 : Neighbor :=
  { roster_id := "77",
    identity_text := build_identity_text { name := "Arch Manning", team := "Texas", year := 2025 },
    similarity := 99 / 100 }

theorem C10_year_read_as_team_witness :
    ((nbC10.identity_text
        = build_identity_text { name := "Arch Manning", team := "Texas", year := 2025 })
      ∧ (¬ '|' ∈ "Arch Manning".data) ∧ (¬ '|' ∈ "Texas".data)
      ∧ (¬ '|' ∈ (toString (2025 : Int)).data)
      ∧ ((toString (2025 : Int)).data ≠ []) ∧ ("Texas".data ≠ [])
      ∧ (pyLower "Texas" ≠ pyLower (toString (2025 : Int)))
      ∧ (pyLower "Texas" = pyLower "Texas"))
    ∧ ((pySplit " | " nbC10.identity_text).get? 2 = some (toString (2025 : Int))
      ∧ vectorScan dbC3 (some "Texas") (nbC10 :: [])
        = vectorScan dbC3 (some "Texas") []) := by
  refine ⟨⟨rfl, by decide, by decide, by decide, by decide, by decide, by decide, rfl⟩, ?_⟩
  exact C10_year_read_as_team dbC3 "Texas" "Arch Manning" "Texas" 2025 nbC10 []
    rfl (by decide) (by decide) (by decide) (by decide) (by decide) (by decide) rfl

/-- The spec's rendering of the identity text (§4.1): the " | "-join of
name, optional position, team, str(year), optional hometown in fixed
order, each optional field contributing exactly its value when present. -/
def identityTextSpec (p : PlayerInfo) : String :=
  pyJoin " | "
    ([p.name] ++ p.position.toList ++ [p.team, toString p.year] ++ p.hometown.toList)

/-- C9. Identity text encoding: for every player record whose optional
position and hometown are either absent or a non-empty string (Python
truthiness treats `""` like an absent field), `build_identity_text`
returns exactly the spec's " | "-joined string in fixed field order
name, [position], team, year, [hometown].  Determinism and freedom from
side effects are inherent: the encoder is embedded as a pure function of
its argument, so re-encoding the same record yields the identical
string. -/
theorem C9_identity_text (p : PlayerInfo)
    (hpos : p.position ≠ some "") (hhome : p.hometown ≠ some "") :
    build_identity_text p = identityTextSpec p := by
  unfold build_identity_text identityTextSpec
  cases hp : p.position with
  | none => cases hh : p.hometown with
    | none => simp [optTruthy]
    | some hm =>
      have hne : hm.data ≠ [] := by
        intro hd
        apply hhome
        rw [hh]
        obtain ⟨l⟩ := hm
        simp at hd
        subst hd
        rfl
      simp [optTruthy, hne]
  | some ps =>
    have hnep : ps.data ≠ [] := by
      intro hd
      apply hpos
      rw [hp]
      obtain ⟨l⟩ := ps
      simp at hd
      subst hd
      rfl
    cases hh : p.hometown with
    | none => simp [optTruthy, hnep]
    | some hm =>
      have hne : hm.data ≠ [] := by
        intro hd
        apply hhome
        rw [hh]
        obtain ⟨l⟩ := hm
        simp at hd
        subst hd
        rfl
      simp [optTruthy, hnep, hne]

theorem C9_identity_text_witness :
    ((some "QB" : Option String) ≠ some "" ∧ (some "Austin" : Option String) ≠ some "")
    ∧ build_identity_text
        { name := "Arch Manning", team := "Texas", year := 2025,
          position := some "QB", hometown := some "Austin" }
      = identityTextSpec
        { name := "Arch Manning", team := "Texas", year := 2025,
          position := some "QB", hometown := some "Austin" }
    ∧ build_identity_text
        { name := "Arch Manning", team := "Texas", year := 2025,
          position := some "QB", hometown := some "Austin" }
      = "Arch Manning | QB | Texas | 2025 | Austin" := by
  refine ⟨⟨by decide, by decide⟩, ?_, ?_⟩
  · exact C9_identity_text _ (by decide) (by decide)
  · decide

/-! ## Algebra of the fuzzy matcher (for C8) -/

theorem lcsLen_nil_left (x : List Char) : lcsLen [] x = 0 := by
  simp [lcsLen]

theorem lcsLen_nil_right (x : List Char) : lcsLen x [] = 0 := by
  cases x <;> simp [lcsLen]

theorem lcsLen_comm (a b : List Char) : lcsLen a b = lcsLen b a := by
  induction a, b using lcsLen.induct with
  | case1 x => rw [lcsLen_nil_left, lcsLen_nil_right]
  | case2 c cs => rw [lcsLen_nil_left, lcsLen_nil_right]
  | case3 as b bs ih =>
    rw [lcsLen, lcsLen]
    simp [ih]
  | case4 a as b bs hne ih1 ih2 =>
    have hne' : ¬b = a := fun hx => hne hx.symm
    rw [lcsLen, lcsLen, if_neg hne, if_neg hne', ih1, ih2, Nat.max_comm]

theorem lcsLen_self (l : List Char) : lcsLen l l = l.length := by
  induction l with
  | nil => rw [lcsLen_nil_left]; rfl
  | cons c l ih => rw [lcsLen, if_pos rfl, ih]; rfl

theorem lcsLen_le_left (a b : List Char) : lcsLen a b ≤ a.length := by
  induction a, b using lcsLen.induct with
  | case1 x => rw [lcsLen_nil_left]; simp
  | case2 c cs => rw [lcsLen_nil_right]; simp
  | case3 as b bs ih =>
    rw [lcsLen, if_pos rfl]
    simpa using ih
  | case4 a as b bs hne ih1 ih2 =>
    rw [lcsLen, if_neg hne]
    simp only [List.length_cons] at *
    omega

theorem lcsLen_le_right (a b : List Char) : lcsLen a b ≤ b.length := by
  rw [lcsLen_comm]
  exact lcsLen_le_left b a

theorem indelScore_comm (a b : List Char) : indelScore a b = indelScore b a := by
  unfold indelScore
  rw [lcsLen_comm, Nat.add_comm b.length a.length, add_comm (b.length : ℚ) (a.length : ℚ)]

theorem indelScore_self (l : List Char) : indelScore l l = 100 := by
  unfold indelScore
  by_cases h : l.length + l.length = 0
  · rw [if_pos h]
  · rw [if_neg h, lcsLen_self]
    have hne : ((l.length : ℚ) + l.length) ≠ 0 := by
      have hpos : 0 < l.length := by omega
      have : (0 : ℚ) < l.length := by exact_mod_cast hpos
      linarith
    rw [div_eq_iff hne]
    ring

theorem indelScore_nonneg (a b : List Char) : 0 ≤ indelScore a b := by
  unfold indelScore
  split
  · norm_num
  · positivity

theorem indelScore_le_100 (a b : List Char) : indelScore a b ≤ 100 := by
  unfold indelScore
  split
  next => norm_num
  next h =>
    have hpos : (0 : ℚ) < (a.length : ℚ) + b.length := by
      have : 0 < a.length + b.length := by omega
      have := (Nat.cast_lt (α := ℚ)).mpr this
      push_cast at this
      linarith
    rw [div_le_iff₀ hpos]
    have h1 := lcsLen_le_left a b
    have h2 := lcsLen_le_right a b
    have hc1 : (lcsLen a b : ℚ) ≤ a.length := by exact_mod_cast h1
    have hc2 : (lcsLen a b : ℚ) ≤ b.length := by exact_mod_cast h2
    nlinarith

theorem lexLe_refl (a : List Char) : lexLe a a = true := by
  induction a with
  | nil => rfl
  | cons x xs ih => simp [lexLe, lt_irrefl, ih]

theorem lexLe_total (a b : List Char) : lexLe a b = true ∨ lexLe b a = true := by
  induction a generalizing b with
  | nil => left; rfl
  | cons x xs ih =>
    cases b with
    | nil => right; rfl
    | cons y ys =>
      rcases lt_trichotomy x y with h | h | h
      · left; simp [lexLe, h]
      · subst h
        rcases ih ys with h' | h'
        · left; simp [lexLe, lt_irrefl, h']
        · right; simp [lexLe, lt_irrefl, h']
      · right; simp [lexLe, h]

theorem lexLe_trans (a b c : List Char) (h1 : lexLe a b = true) (h2 : lexLe b c = true) :
    lexLe a c = true := by
  induction a generalizing b c with
  | nil => rfl
  | cons x xs ih =>
    cases b with
    | nil => simp [lexLe] at h1
    | cons y ys =>
      cases c with
      | nil => simp [lexLe] at h2
      | cons z zs =>
        by_cases hxy : x < y
        · by_cases hyz : y < z
          · simp [lexLe, lt_trans hxy hyz]
          · by_cases hzy : z < y
            · simp [lexLe, hyz, hzy] at h2
            · have hEq : y = z := le_antisymm (not_lt.mp hzy) (not_lt.mp hyz)
              subst hEq
              simp [lexLe, hxy]
        · by_cases hyx : y < x
          · simp [lexLe, hxy, hyx] at h1
          · have hEq : x = y := le_antisymm (not_lt.mp hyx) (not_lt.mp hxy)
            subst hEq
            simp only [lexLe, lt_irrefl, if_false] at h1
            by_cases hxz : x < z
            · simp [lexLe, hxz]
            · by_cases hzx : z < x
              · simp [lexLe, hxz, hzx] at h2
              · have hEq2 : x = z := le_antisymm (not_lt.mp hzx) (not_lt.mp hxz)
                subst hEq2
                simp only [lexLe, lt_irrefl, if_false] at h2 ⊢
                exact ih ys zs h1 h2

theorem lexLe_antisymm (a b : List Char) (h1 : lexLe a b = true) (h2 : lexLe b a = true) :
    a = b := by
  induction a generalizing b with
  | nil =>
    cases b with
    | nil => rfl
    | cons y ys => simp [lexLe] at h2
  | cons x xs ih =>
    cases b with
    | nil => simp [lexLe] at h1
    | cons y ys =>
      by_cases hxy : x < y
      · simp [lexLe, hxy, asymm hxy] at h2
      · by_cases hyx : y < x
        · simp [lexLe, hxy, hyx] at h1
        · have hEq : x = y := le_antisymm (not_lt.mp hyx) (not_lt.mp hxy)
          subst hEq
          simp only [lexLe, lt_irrefl, if_false] at h1 h2
          rw [ih ys h1 h2]

/-- `sorted(tokens)` of permuted token multisets coincide: `mergeSort` by
the lexicographic order is determined by the multiset of tokens. -/
theorem mergeSort_lexLe_perm_eq (l₁ l₂ : List (List Char)) (h : l₁.Perm l₂) :
    l₁.mergeSort lexLe = l₂.mergeSort lexLe := by
  haveI : IsAntisymm (List Char) (fun a b => lexLe a b = true) :=
    ⟨fun a b h1 h2 => lexLe_antisymm a b h1 h2⟩
  have htrans : ∀ (a b c : List Char), lexLe a b = true → lexLe b c = true →
      lexLe a c = true := lexLe_trans
  have htotal : ∀ (a b : List Char), (lexLe a b || lexLe b a) = true := by
    intro a b
    rcases lexLe_total a b with h' | h' <;> simp [h']
  have hp : (l₁.mergeSort lexLe).Perm (l₂.mergeSort lexLe) :=
    ((List.mergeSort_perm l₁ lexLe).trans h).trans (List.mergeSort_perm l₂ lexLe).symm
  exact List.eq_of_perm_of_sorted hp
    (List.sorted_mergeSort htrans htotal l₁)
    (List.sorted_mergeSort htrans htotal l₂)

theorem wsTokensAux_allWs (w : List Char) (hw : ∀ c ∈ w, isWs c = true) (cur : List Char) :
    wsTokensAux cur w = if cur.isEmpty then [] else [cur.reverse] := by
  induction w generalizing cur with
  | nil => rfl
  | cons c w ih =>
    have hc : isWs c = true := hw c (List.mem_cons_self _ _)
    have hw' : ∀ x ∈ w, isWs x = true := fun x hx => hw x (List.mem_cons_of_mem _ hx)
    rw [wsTokensAux, if_pos hc]
    by_cases hcur : cur.isEmpty = true
    · rw [if_pos hcur, if_pos hcur, ih hw' []]
      rfl
    · rw [if_neg hcur, if_neg hcur, ih hw' []]
      rfl

theorem wsTokensAux_wsLead (w l : List Char) (hw : ∀ c ∈ w, isWs c = true) :
    wsTokensAux [] (w ++ l) = wsTokensAux [] l := by
  induction w with
  | nil => rfl
  | cons c w ih =>
    have hc : isWs c = true := hw c (List.mem_cons_self _ _)
    have hw' : ∀ x ∈ w, isWs x = true := fun x hx => hw x (List.mem_cons_of_mem _ hx)
    rw [List.cons_append, wsTokensAux, if_pos hc]
    simp only [List.isEmpty_nil, if_true]
    exact ih hw'

theorem wsTokensAux_wsTrail (l w : List Char) (hw : ∀ c ∈ w, isWs c = true) :
    ∀ cur, wsTokensAux cur (l ++ w) = wsTokensAux cur l := by
  induction l with
  | nil =>
    intro cur
    rw [List.nil_append, wsTokensAux_allWs w hw cur]
    rfl
  | cons c l ih =>
    intro cur
    rw [List.cons_append, wsTokensAux]
    conv_rhs => rw [wsTokensAux]
    by_cases hc : isWs c = true
    · rw [if_pos hc, if_pos hc]
      by_cases hcur : cur.isEmpty = true
      · rw [if_pos hcur, if_pos hcur, ih []]
      · rw [if_neg hcur, if_neg hcur, ih []]
    · rw [if_neg hc, if_neg hc, ih (c :: cur)]

/-- Tokenization ignores the strip: `strip()` only removes boundary
whitespace, which produces no tokens. -/
theorem wsTokens_stripChars (l : List Char) : wsTokens (stripChars l) = wsTokens l := by
  unfold stripChars wsTokens
  conv_rhs => rw [← List.takeWhile_append_dropWhile (p := isWs) (l := l)]
  rw [wsTokensAux_wsLead _ _ fun c hc => List.mem_takeWhile_imp hc]
  have hsplit : l.dropWhile isWs
      = ((l.dropWhile isWs).reverse.dropWhile isWs).reverse
        ++ ((l.dropWhile isWs).reverse.takeWhile isWs).reverse := by
    rw [← List.reverse_append, List.takeWhile_append_dropWhile, List.reverse_reverse]
  conv_rhs => rw [hsplit]
  rw [wsTokensAux_wsTrail]
  intro c hc
  rw [List.mem_reverse] at hc
  exact List.mem_takeWhile_imp hc

theorem toLower_ws (c : Char) (h : c.isWhitespace = true) : c.toLower = c := by
  simp [Char.isWhitespace] at h
  rcases h with ((h | h) | h) | h <;> subst h <;> decide

/-- `Char.toLower` maps whitespace to whitespace and non-whitespace to
non-whitespace (A–Z lowers into a–z, everything else is unchanged). -/
theorem isWs_toLower (c : Char) : (c.toLower).isWhitespace = c.isWhitespace := by
  by_cases h : c.isWhitespace = true
  · rw [toLower_ws c h]
  · have h' : c.isWhitespace = false := by revert h; cases c.isWhitespace <;> simp
    rw [h']
    unfold Char.toLower
    dsimp only
    split
    next hcond =>
      obtain ⟨h65, h90⟩ := hcond
      set n := c.toNat with hn
      interval_cases n <;> decide
    next => exact h'

/-- Tokenization commutes with lowercasing. -/
theorem wsTokensAux_map_lower (l : List Char) :
    ∀ cur, wsTokensAux (cur.map Char.toLower) (l.map Char.toLower)
      = (wsTokensAux cur l).map (List.map Char.toLower) := by
  induction l with
  | nil =>
    intro cur
    rw [List.map_nil, wsTokensAux, wsTokensAux]
    by_cases hcur : cur.isEmpty = true
    · have : (cur.map Char.toLower).isEmpty = true := by
        cases cur with
        | nil => rfl
        | cons a l => simp at hcur
      rw [if_pos hcur, if_pos this]
      rfl
    · have : (cur.map Char.toLower).isEmpty = false := by
        cases cur with
        | nil => exact absurd rfl hcur
        | cons a l => rfl
      rw [if_neg hcur, if_neg (by rw [this]; simp)]
      simp
  | cons c l ih =>
    intro cur
    rw [List.map_cons, wsTokensAux]
    conv_rhs => rw [wsTokensAux]
    have hws : isWs c.toLower = isWs c := by
      unfold isWs
      exact isWs_toLower c
    by_cases hc : isWs c = true
    · rw [if_pos (by rw [hws]; exact hc), if_pos hc]
      by_cases hcur : cur.isEmpty = true
      · have hmap : (cur.map Char.toLower).isEmpty = true := by
          cases cur with
          | nil => rfl
          | cons a m => simp at hcur
        rw [if_pos hcur, if_pos hmap]
        have := ih []
        rw [List.map_nil] at this
        exact this
      · have hmap : (cur.map Char.toLower).isEmpty = false := by
          cases cur with
          | nil => exact absurd rfl hcur
          | cons a m => rfl
        rw [if_neg hcur, if_neg (by rw [hmap]; simp)]
        have h0 := ih []
        rw [List.map_nil] at h0
        simp [h0]
    · rw [if_neg (by rw [hws]; exact hc), if_neg hc]
      have := ih (c :: cur)
      rw [List.map_cons] at this
      exact this

/-- The tokens the matcher sorts are the lowercased raw tokens. -/
theorem normTokens (a : String) :
    wsTokens ((pyStrip (pyLower a)).data)
      = (wsTokens a.data).map (List.map Char.toLower) := by
  unfold pyStrip pyLower wsTokens
  have h1 : ((⟨stripChars (⟨a.data.map Char.toLower⟩ : String).data⟩ : String)).data
      = stripChars (a.data.map Char.toLower) := rfl
  rw [h1]
  have h2 := wsTokens_stripChars (a.data.map Char.toLower)
  unfold wsTokens at h2
  rw [h2]
  have h3 := wsTokensAux_map_lower a.data []
  rw [List.map_nil] at h3
  exact h3

/-- Scores depend only on the multiset of raw whitespace tokens: names
whose token lists are permutations of one another score identically
against any third name. -/
theorem fuzzy_match_name_tokens_perm (a b c : String)
    (h : (wsTokens a.data).Perm (wsTokens b.data)) :
    fuzzy_match_name a c = fuzzy_match_name b c := by
  have hsort : (wsTokens ((pyStrip (pyLower a)).data)).mergeSort lexLe
      = (wsTokens ((pyStrip (pyLower b)).data)).mergeSort lexLe := by
    rw [normTokens, normTokens]
    exact mergeSort_lexLe_perm_eq _ _ (h.map _)
  unfold fuzzy_match_name tokenSortSimilarity tokenSortJoined
  dsimp only
  rw [hsort]

/-- C8. Fuzzy similarity algebra: `fuzzy_match_name` is symmetric, scores
100 on identical names, always lies in `[0, 100]`, and is invariant under
case changes (equal lowercasings), leading/trailing whitespace padding,
and reordering of the whitespace-separated tokens of either name — in
particular "John Smith" vs "Smith John" scores 100.  (Invariance in the
second argument follows by composing with symmetry.) -/
theorem C8_fuzzy_algebra :
    (∀ a b, fuzzy_match_name a b = fuzzy_match_name b a)
    ∧ (∀ a, fuzzy_match_name a a = 100)
    ∧ (∀ a b, 0 ≤ fuzzy_match_name a b ∧ fuzzy_match_name a b ≤ 100)
    ∧ (∀ a b c, pyLower a = pyLower b → fuzzy_match_name a c = fuzzy_match_name b c)
    ∧ (∀ (a c w1 w2 : String), (∀ ch ∈ w1.data, isWs ch = true) →
        (∀ ch ∈ w2.data, isWs ch = true) →
        fuzzy_match_name (w1 ++ a ++ w2) c = fuzzy_match_name a c)
    ∧ (∀ a b c, (wsTokens a.data).Perm (wsTokens b.data) →
        fuzzy_match_name a c = fuzzy_match_name b c)
    ∧ fuzzy_match_name "John Smith" "Smith John" = 100 := by
  refine ⟨?_, ?_, ?_, ?_, ?_, ?_, ?_⟩
  · intro a b
    unfold fuzzy_match_name tokenSortSimilarity
    exact indelScore_comm _ _
  · intro a
    unfold fuzzy_match_name tokenSortSimilarity
    exact indelScore_self _
  · intro a b
    unfold fuzzy_match_name tokenSortSimilarity
    exact ⟨indelScore_nonneg _ _, indelScore_le_100 _ _⟩
  · intro a b c h
    unfold fuzzy_match_name
    rw [h]
  · intro a c w1 w2 h1 h2
    apply fuzzy_match_name_tokens_perm
    have htok : wsTokens (w1 ++ a ++ w2).data = wsTokens a.data := by
      rw [String.data_append, String.data_append]
      unfold wsTokens
      rw [wsTokensAux_wsTrail (w1.data ++ a.data) w2.data h2 [],
        wsTokensAux_wsLead w1.data a.data h1]
    rw [htok]
  · intro a b c h
    exact fuzzy_match_name_tokens_perm a b c h
  · simp [fuzzy_match_name, tokenSortSimilarity, tokenSortJoined, pyStrip, pyLower,
      stripChars, wsTokens, wsTokensAux, isWs, List.mergeSort, lexLe, indelScore,
      lcsLen, List.intercalate]
    norm_num

end CubScout
